import Mathlib

/-!
Verification of the Stock-Agent-Application repository against its
natural-language specification.

The repository has two relevant parts:
* the interactive ball-pit particle simulation (the "core" of the spec);
  its implementation module (`components/Ballpit.tsx`) is not present in
  the source excerpt, only its callers and documentation, so the physics
  components below are modelled from the spec;
* the chat page `frontend/app/page.tsx`, whose `callBackend` and
  `ReportRenderer` functions are embedded directly from the code.

All real-valued quantities are modelled as rationals (`ℚ`), which keeps
every definition executable and every comparison decidable.
-/

namespace Ballpit

/-- A 3-component vector in simulation space. -/
structure Vec3 where
  x : ℚ
  y : ℚ
  z : ℚ
  deriving DecidableEq, Repr

namespace Vec3

def add (a b : Vec3) : Vec3 := ⟨a.x + b.x, a.y + b.y, a.z + b.z⟩

def sub (a b : Vec3) : Vec3 := ⟨a.x - b.x, a.y - b.y, a.z - b.z⟩

def smul (c : ℚ) (a : Vec3) : Vec3 := ⟨c * a.x, c * a.y, c * a.z⟩

/-- Squared Euclidean norm; exact in ℚ (the norm itself is not rational). -/
def normSq (a : Vec3) : ℚ := a.x * a.x + a.y * a.y + a.z * a.z

def zero : Vec3 := ⟨0, 0, 0⟩

end Vec3

/-- Modelled from the spec (§3 Data Model): a simulated sphere — passive
data holding position, velocity, radius and color.  The missing source
module is `components/Ballpit.tsx`. -/
structure Body where
  position : Vec3
  velocity : Vec3
  radius : ℚ
  color : Nat
  deriving DecidableEq, Repr

/-- Modelled from the spec (§3): an axis-aligned bounding box given by its
componentwise lower and upper corners. -/
structure BoundingVolume where
  lo : Vec3
  hi : Vec3
  deriving DecidableEq, Repr

/-- The volume is well formed when the lower corner is componentwise
below the upper corner. -/
def BoundingVolume.wf (vol : BoundingVolume) : Prop :=
  vol.lo.x ≤ vol.hi.x ∧ vol.lo.y ≤ vol.hi.y ∧ vol.lo.z ≤ vol.hi.z

instance (vol : BoundingVolume) : Decidable vol.wf := by
  unfold BoundingVolume.wf; infer_instance

/-- Modelled from the spec (§4.2 BoundaryResolver): one axis of the wall
test — on penetration, clamp the coordinate to the boundary and reflect
the velocity component normal to that face, scaled by `wallBounce`. -/
def resolveAxis (lo hi wallBounce : ℚ) (p v : ℚ) : ℚ × ℚ :=
  if p < lo then (lo, -(wallBounce * v))
  else if hi < p then (hi, -(wallBounce * v))
  else (p, v)

/-- Modelled from the spec (§4.2): the x-face pass of the boundary
resolver. -/
def resolveFaceX (vol : BoundingVolume) (wallBounce : ℚ) (b : Body) : Body :=
  let r := resolveAxis vol.lo.x vol.hi.x wallBounce b.position.x b.velocity.x
  { b with position := { b.position with x := r.1 },
           velocity := { b.velocity with x := r.2 } }

/-- Modelled from the spec (§4.2): the y-face pass of the boundary
resolver. -/
def resolveFaceY (vol : BoundingVolume) (wallBounce : ℚ) (b : Body) : Body :=
  let r := resolveAxis vol.lo.y vol.hi.y wallBounce b.position.y b.velocity.y
  { b with position := { b.position with y := r.1 },
           velocity := { b.velocity with y := r.2 } }

/-- Modelled from the spec (§4.2): the z-face pass of the boundary
resolver. -/
def resolveFaceZ (vol : BoundingVolume) (wallBounce : ℚ) (b : Body) : Body :=
  let r := resolveAxis vol.lo.z vol.hi.z wallBounce b.position.z b.velocity.z
  { b with position := { b.position with z := r.1 },
           velocity := { b.velocity with z := r.2 } }

/-- Modelled from the spec (§4.2 BoundaryResolver): faces are resolved
independently and sequentially in the fixed deterministic order
x before y before z. -/
def boundaryResolve (vol : BoundingVolume) (wallBounce : ℚ) (b : Body) : Body :=
  resolveFaceZ vol wallBounce (resolveFaceY vol wallBounce (resolveFaceX vol wallBounce b))

/-- A concrete bounding volume used by witnesses. -/
def volW : BoundingVolume := ⟨⟨-2, -2, -2⟩, ⟨2, 2, 2⟩⟩

/-- A concrete body (outside the volume on x and z) used by witnesses. -/
def bodyW : Body := ⟨⟨5, 0, -7⟩, ⟨1, 1, 1⟩, 1, 0⟩

/-- Dot product of two vectors. -/
def Vec3.dot (a b : Vec3) : ℚ := a.x * b.x + a.y * b.y + a.z * b.z

/-- Modelled from the spec (§4.3 edge case): the small deterministic
perturbation axis used when two centers coincide. -/
def fallbackAxis : Vec3 := ⟨1/1000, 0, 0⟩

/-- Modelled from the spec (§4.3): the separation axis of a collision
pair — the center-difference vector, or the deterministic perturbation
axis when the centers coincide. -/
def sepAxis (diff : Vec3) : Vec3 :=
  if diff = Vec3.zero then fallbackAxis else diff

/-- Modelled from the spec (§4.3 CollisionResolver): resolve one detected
pair given the computed center distance `d` (the distance itself is a
square root, so the model takes its value as an argument): equal-mass
impulse exchange along the line connecting the centers (the design
choice left open in §9 is fixed to equal-mass) plus a positional
correction that moves each body half the overlap apart. -/
def resolveWithDist (d : ℚ) (b1 b2 : Body) : Body × Body :=
  let diff := Vec3.sub b2.position b1.position
  let u := Vec3.smul (1 / d) (sepAxis diff)
  let overlap := b1.radius + b2.radius - d
  let vrel := Vec3.dot (Vec3.sub b2.velocity b1.velocity) u
  ({ b1 with position := Vec3.sub b1.position (Vec3.smul (overlap / 2) u),
             velocity := Vec3.add b1.velocity (Vec3.smul vrel u) },
   { b2 with position := Vec3.add b2.position (Vec3.smul (overlap / 2) u),
             velocity := Vec3.sub b2.velocity (Vec3.smul vrel u) })

/-- Modelled from the spec (§4.3): all index pairs `(i, j)` with
`i < j < n`, in increasing lexicographic order — the fixed, stable
processing order of the collision pass. -/
def pairsInOrder (n : Nat) : List (Nat × Nat) :=
  (List.range n).flatMap fun i =>
    ((List.range n).filter fun j => decide (i < j)).map fun j => (i, j)

/-- Strict lexicographic order on index pairs. -/
def pairIdxLt (a b : Nat × Nat) : Prop :=
  a.1 < b.1 ∨ (a.1 = b.1 ∧ a.2 < b.2)

/-- A fixed-fuel Newton iteration giving a deterministic rational
approximation of a square root; the model only needs it to be a
function, matching the deterministic floating-point `sqrt` of the
missing source. -/
def sqrtIter : Nat → ℚ → ℚ → ℚ
  | 0, _, g => g
  | k + 1, a, g => sqrtIter k a ((g + a / g) / 2)

def ratSqrt (a : ℚ) : ℚ :=
  if a ≤ 0 then 0 else sqrtIter 20 a ((a + 1) / 2)

/-- Modelled from the spec (§4.3): apply the collision test and
resolution to the pair of bodies at one index pair, in place in the
body list. -/
def resolvePairAt (bs : List Body) (ij : Nat × Nat) : List Body :=
  match bs[ij.1]?, bs[ij.2]? with
  | some b1, some b2 =>
    let diff := Vec3.sub b2.position b1.position
    if Vec3.normSq diff < (b1.radius + b2.radius) ^ 2 then
      let d := ratSqrt (Vec3.normSq (sepAxis diff))
      let r := resolveWithDist d b1 b2
      (bs.set ij.1 r.1).set ij.2 r.2
    else bs
  | _, _ => bs

/-- Modelled from the spec (§4.3): the naive all-pairs collision pass,
folding over the pairs in the fixed order. -/
def collisionPass (bs : List Body) : List Body :=
  (pairsInOrder bs.length).foldl resolvePairAt bs

/-- A concrete unit-radius body at the origin, used by witnesses. -/
def bodyA : Body := ⟨⟨0, 0, 0⟩, Vec3.zero, 1, 0⟩

/-- A concrete unit-radius body at distance 1 from `bodyA`, used by
witnesses. -/
def bodyB : Body := ⟨⟨1, 0, 0⟩, Vec3.zero, 1, 2⟩

/-- Clamp a rational to an interval. -/
def clampQ (lo hi v : ℚ) : ℚ := max lo (min hi v)

/-- Componentwise clamp of a vector to the cube `[-m, m]³`. -/
def clampVec (m : ℚ) (v : Vec3) : Vec3 :=
  ⟨clampQ (-m) m v.x, clampQ (-m) m v.y, clampQ (-m) m v.z⟩

/-- Modelled from the spec (§4.1): the fixed attraction strength
constant. -/
def attractStrength : ℚ := 1 / 10

/-- Modelled from the spec (§4.1): the bound on the distance-scaled pull,
keeping the attraction bounded rather than inverse-square. -/
def maxPull : ℚ := 10

/-- Modelled from the spec (§4.1): steering acceleration toward the
cursor target, scaled by (bounded) distance and the strength constant. -/
def attractionAccel (target pos : Vec3) : Vec3 :=
  Vec3.smul attractStrength (clampVec maxPull (Vec3.sub target pos))

/-- Modelled from the spec (§4.1 and §9): the per-step multiplicative
decay that the configured `friction ∈ [0,1]` maps to.  The exact mapping
is left open by §9; the model fixes the simplest monotone choice — the
factor is the coefficient itself, so `friction = 1` leaves velocity
untouched and `friction = 0` zeroes it. -/
def frictionFactor (friction dt : ℚ) : ℚ := friction

/-- Modelled from the spec (§4.1 Integrator): semi-implicit Euler —
gravity, then friction decay, then bounded cursor attraction on the
velocity; position is advanced with the updated velocity. -/
def integrate (gravity friction : ℚ) (cursor : Option Vec3) (dt : ℚ) (b : Body) : Body :=
  let v1 : Vec3 := ⟨b.velocity.x, b.velocity.y - gravity * dt, b.velocity.z⟩
  let v2 := Vec3.smul (frictionFactor friction dt) v1
  let v3 := match cursor with
    | none => v2
    | some t => Vec3.add v2 (Vec3.smul dt (attractionAccel t b.position))
  { b with velocity := v3, position := Vec3.add b.position (Vec3.smul dt v3) }

/-- Modelled from the spec (§3, §6): the construction configuration the
core consumes (lighting parameters are passed through untouched and
omitted). -/
structure SimulationConfig where
  count : Int
  gravity : ℚ
  friction : ℚ
  wallBounce : ℚ
  minSize : ℚ
  maxSize : ℚ
  colors : List Nat
  followCursor : Bool
  deriving DecidableEq, Repr

/-- Modelled from the spec (§7): the `ConfigurationError` raised on
invalid construction input. -/
inductive ConfigError where
  | nonPositiveCount
  | sizeOrder
  | emptyColors
  | frictionRange
  | wallBounceRange
  deriving DecidableEq, Repr

/-- The §7 validity predicate on configurations. -/
def SimulationConfig.valid (c : SimulationConfig) : Prop :=
  0 < c.count ∧ c.minSize ≤ c.maxSize ∧ c.colors ≠ [] ∧
  0 ≤ c.friction ∧ c.friction ≤ 1 ∧ 0 ≤ c.wallBounce ∧ c.wallBounce ≤ 1

instance (c : SimulationConfig) : Decidable c.valid := by
  unfold SimulationConfig.valid; infer_instance

/-- Modelled from the spec (§7 Error handling): fail fast at
construction on `count ≤ 0`, `minSize > maxSize`, empty `colors`, or a
coefficient outside `[0,1]`; never clamp — on success the configuration
is returned unchanged. -/
def validateConfig (c : SimulationConfig) : Except ConfigError SimulationConfig :=
  if c.count ≤ 0 then .error .nonPositiveCount
  else if c.maxSize < c.minSize then .error .sizeOrder
  else if c.colors = [] then .error .emptyColors
  else if c.friction < 0 then .error .frictionRange
  else if 1 < c.friction then .error .frictionRange
  else if c.wallBounce < 0 then .error .wallBounceRange
  else if 1 < c.wallBounce then .error .wallBounceRange
  else .ok c

/-- The concrete configuration of `BallpitBackground` in the source
(`src/unnamed/part_000`), used by witnesses. -/
def cfgW : SimulationConfig :=
  { count := 60, gravity := 1 / 10, friction := 95 / 100, wallBounce := 9 / 10,
    minSize := 1 / 2, maxSize := 6 / 5,
    colors := [0x3b82f6, 0x8b5cf6, 0x6366f1, 0x1e293b], followCursor := true }

/-- Modelled from the spec (§4.6): the SimulationLoop state machine
phases. -/
inductive Phase where
  | uninit
  | running
  | paused
  | disposed
  deriving DecidableEq, Repr

/-- Modelled from the spec (§4.6, §5): the state owned by the
SimulationLoop's stepping task — phase, the registered per-frame timer
and visibility observer, the body set, and the single-slot latest-value
cursor target and bounding volume. -/
structure LoopState where
  phase : Phase
  timerRegistered : Bool
  observerRegistered : Bool
  bodies : List Body
  cursor : Option Vec3
  vol : BoundingVolume
  cfg : SimulationConfig
  deriving Repr

/-- Modelled from the spec (§6): the asynchronous host events the loop
consumes. -/
inductive HostEvent where
  | tick (dt : ℚ)
  | pointer (target : Option Vec3)
  | resize (vol : BoundingVolume)
  | visibility (visible : Bool)
  | dispose
  deriving Repr

/-- The per-step snapshot published to the rendering collaborator:
position, radius and color per body, keyed by list index. -/
def snapshotOf (bs : List Body) : List (Vec3 × ℚ × Nat) :=
  bs.map fun b => (b.position, b.radius, b.color)

/-- Modelled from the spec (§2, §4.6): one physics step — Integrator,
then BoundaryResolver, then CollisionResolver. -/
def stepBodies (cfg : SimulationConfig) (vol : BoundingVolume)
    (cursor : Option Vec3) (dt : ℚ) (bs : List Body) : List Body :=
  collisionPass
    ((bs.map (integrate cfg.gravity cfg.friction
        (if cfg.followCursor then cursor else none) dt)).map
      (boundaryResolve vol cfg.wallBounce))

/-- Modelled from the spec (§4.6, §5): the loop's reaction to one host
event, returning the new state and the published snapshot, if any.
A disposed loop ignores every event; disposal cancels the timer and
observer and releases the body set. -/
def handleEvent (s : LoopState) (e : HostEvent) : LoopState × Option (List (Vec3 × ℚ × Nat)) :=
  match s.phase with
  | .disposed => (s, none)
  | ph =>
    match e with
    | .dispose =>
      ({ s with phase := .disposed, timerRegistered := false,
                observerRegistered := false, bodies := [] }, none)
    | .tick dt =>
      match ph with
      | .running =>
        let bs := stepBodies s.cfg s.vol s.cursor dt s.bodies
        ({ s with bodies := bs }, some (snapshotOf bs))
      | _ => (s, none)
    | .pointer t => ({ s with cursor := t }, none)
    | .resize v => ({ s with vol := v }, none)
    | .visibility true =>
      match ph with
      | .paused => ({ s with phase := .running }, none)
      | _ => (s, none)
    | .visibility false =>
      match ph with
      | .running => ({ s with phase := .paused }, none)
      | _ => (s, none)

/-- Process a whole sequence of pending host events, collecting every
published snapshot. -/
def processEvents (s : LoopState) : List HostEvent → LoopState × List (List (Vec3 × ℚ × Nat))
  | [] => (s, [])
  | e :: es =>
    let r := handleEvent s e
    let rest := processEvents r.1 es
    (rest.1, r.2.toList ++ rest.2)

/-- A concrete disposed loop state, used by witnesses. -/
def stateW : LoopState :=
  ⟨.disposed, false, false, [], none, volW, cfgW⟩

/-- A concrete running loop state, used by witnesses. -/
def runningW : LoopState :=
  ⟨.running, true, true, [bodyA, bodyB], none, volW, cfgW⟩

/-- Modelled from the spec (§3, §8): a deterministic linear congruential
step standing in for the random seed's generator. -/
def lcg (s : Nat) : Nat := (1664525 * s + 1013904223) % 4294967296

/-- A deterministic draw in `[0, 1]` from a generator state. -/
def unitRat (s : Nat) : ℚ := (s % 1001 : ℚ) / 1000

/-- Modelled from the spec (§3 Lifecycle): the body set created once at
(re)initialization — radius drawn from `[minSize, maxSize]` and color
from the palette, deterministically from the seed. -/
def initBodies (cfg : SimulationConfig) (seed : Nat) : List Body :=
  (List.range cfg.count.toNat).map fun i =>
    let s1 := lcg (seed + i)
    let s2 := lcg s1
    let s3 := lcg s2
    let s4 := lcg s3
    let s5 := lcg s4
    { position := ⟨unitRat s1, unitRat s2, unitRat s3⟩,
      velocity := Vec3.zero,
      radius := cfg.minSize + (cfg.maxSize - cfg.minSize) * unitRat s4,
      color := cfg.colors.getD (s5 % cfg.colors.length) 0 }

/-- Modelled from the spec (§8 Determinism): a whole run — initialize
from the seed, then step once per `(Δt, cursor)` input, publishing one
snapshot per executed step. -/
def runSim (cfg : SimulationConfig) (vol : BoundingVolume) (seed : Nat)
    (inputs : List (ℚ × Option Vec3)) : List (List (Vec3 × ℚ × Nat)) :=
  (inputs.foldl
    (fun acc inp =>
      let bs := stepBodies cfg vol inp.2 inp.1 acc.1
      (bs, acc.2 ++ [snapshotOf bs]))
    (initBodies cfg seed, [])).2

theorem resolveAxis_mem (lo hi w p v : ℚ) (h : lo ≤ hi) :
    lo ≤ (resolveAxis lo hi w p v).1 ∧ (resolveAxis lo hi w p v).1 ≤ hi := by
  unfold resolveAxis
  split
  · exact ⟨le_refl lo, h⟩
  · split
    · exact ⟨h, le_refl hi⟩
    · constructor
      · exact le_of_not_lt (by assumption)
      · exact le_of_not_lt (by assumption)

theorem resolveFaceX_keeps_yz (vol : BoundingVolume) (w : ℚ) (b : Body) :
    (resolveFaceX vol w b).position.y = b.position.y ∧
    (resolveFaceX vol w b).position.z = b.position.z := by
  simp [resolveFaceX]

theorem resolveFaceY_keeps_xz (vol : BoundingVolume) (w : ℚ) (b : Body) :
    (resolveFaceY vol w b).position.x = b.position.x ∧
    (resolveFaceY vol w b).position.z = b.position.z := by
  simp [resolveFaceY]

theorem resolveFaceZ_keeps_xy (vol : BoundingVolume) (w : ℚ) (b : Body) :
    (resolveFaceZ vol w b).position.x = b.position.x ∧
    (resolveFaceZ vol w b).position.y = b.position.y := by
  simp [resolveFaceZ]

/-- C1: after any BoundaryResolver pass, over any well-formed bounding
volume and any incoming body state (hence after the pass of every
simulation step, whatever the earlier pipeline stages did), each
coordinate of the body's center lies within the bounding volume, outside
it by no more than any nonnegative tolerance. -/
theorem boundary_pass_containment (vol : BoundingVolume) (w tol : ℚ) (b : Body)
    (hwf : vol.wf) (htol : 0 ≤ tol) :
    vol.lo.x - tol ≤ (boundaryResolve vol w b).position.x ∧
    (boundaryResolve vol w b).position.x ≤ vol.hi.x + tol ∧
    vol.lo.y - tol ≤ (boundaryResolve vol w b).position.y ∧
    (boundaryResolve vol w b).position.y ≤ vol.hi.y + tol ∧
    vol.lo.z - tol ≤ (boundaryResolve vol w b).position.z ∧
    (boundaryResolve vol w b).position.z ≤ vol.hi.z + tol := by
  obtain ⟨hx, hy, hz⟩ := hwf
  have Hx := resolveAxis_mem vol.lo.x vol.hi.x w b.position.x b.velocity.x hx
  have Hy := resolveAxis_mem vol.lo.y vol.hi.y w b.position.y b.velocity.y hy
  have Hz := resolveAxis_mem vol.lo.z vol.hi.z w b.position.z b.velocity.z hz
  simp only [boundaryResolve, resolveFaceX, resolveFaceY, resolveFaceZ]
  refine ⟨by linarith [Hx.1], by linarith [Hx.2], by linarith [Hy.1],
          by linarith [Hy.2], by linarith [Hz.1], by linarith [Hz.2]⟩

/-- C1 witness: containment at a concrete volume, body and tolerance. -/
theorem boundary_pass_containment_witness :
    volW.wf ∧ (0 : ℚ) ≤ 1 ∧
    (volW.lo.x - 1 ≤ (boundaryResolve volW (1/2) bodyW).position.x ∧
     (boundaryResolve volW (1/2) bodyW).position.x ≤ volW.hi.x + 1 ∧
     volW.lo.y - 1 ≤ (boundaryResolve volW (1/2) bodyW).position.y ∧
     (boundaryResolve volW (1/2) bodyW).position.y ≤ volW.hi.y + 1 ∧
     volW.lo.z - 1 ≤ (boundaryResolve volW (1/2) bodyW).position.z ∧
     (boundaryResolve volW (1/2) bodyW).position.z ≤ volW.hi.z + 1) :=
  ⟨by decide, by norm_num,
   boundary_pass_containment volW (1/2) 1 bodyW (by decide) (by norm_num)⟩

theorem resolveAxis_penetrating (lo hi w p v : ℚ) (h : p < lo ∨ hi < p) :
    (resolveAxis lo hi w p v).2 = -(w * v) := by
  unfold resolveAxis
  rcases h with h | h
  · simp [h]
  · by_cases hpl : p < lo
    · simp [hpl]
    · simp [hpl, h]

/-- C3: a body that penetrates a wall face has the velocity component
normal to that face replaced by the incoming one scaled by `wallBounce`
and negated; `wallBounce = 0` stops it dead, `wallBounce = 1` reverses
it with equal magnitude; corner penetration is resolved face by face in
the fixed order x, then y, then z. -/
theorem wall_bounce_reflection (vol : BoundingVolume) (w : ℚ) (b : Body) :
    ((b.position.x < vol.lo.x ∨ vol.hi.x < b.position.x) →
      (boundaryResolve vol w b).velocity.x = -(w * b.velocity.x) ∧
      (boundaryResolve vol 0 b).velocity.x = 0 ∧
      (boundaryResolve vol 1 b).velocity.x = -b.velocity.x) ∧
    ((b.position.y < vol.lo.y ∨ vol.hi.y < b.position.y) →
      (boundaryResolve vol w b).velocity.y = -(w * b.velocity.y) ∧
      (boundaryResolve vol 0 b).velocity.y = 0 ∧
      (boundaryResolve vol 1 b).velocity.y = -b.velocity.y) ∧
    ((b.position.z < vol.lo.z ∨ vol.hi.z < b.position.z) →
      (boundaryResolve vol w b).velocity.z = -(w * b.velocity.z) ∧
      (boundaryResolve vol 0 b).velocity.z = 0 ∧
      (boundaryResolve vol 1 b).velocity.z = -b.velocity.z) ∧
    boundaryResolve vol w b
      = resolveFaceZ vol w (resolveFaceY vol w (resolveFaceX vol w b)) := by
  refine ⟨fun h => ?_, fun h => ?_, fun h => ?_, rfl⟩
  · have H := fun w' => resolveAxis_penetrating vol.lo.x vol.hi.x w' b.position.x b.velocity.x h
    simp only [boundaryResolve, resolveFaceX, resolveFaceY, resolveFaceZ]
    exact ⟨by simpa using H w, by simpa using H 0, by simpa using H 1⟩
  · have H := fun w' => resolveAxis_penetrating vol.lo.y vol.hi.y w' b.position.y b.velocity.y h
    simp only [boundaryResolve, resolveFaceX, resolveFaceY, resolveFaceZ]
    exact ⟨by simpa using H w, by simpa using H 0, by simpa using H 1⟩
  · have H := fun w' => resolveAxis_penetrating vol.lo.z vol.hi.z w' b.position.z b.velocity.z h
    simp only [boundaryResolve, resolveFaceX, resolveFaceY, resolveFaceZ]
    exact ⟨by simpa using H w, by simpa using H 0, by simpa using H 1⟩

/-- C3 witness: a concrete body penetrating the high x face and the low z
face sees its normal velocity components scaled as specified. -/
theorem wall_bounce_reflection_witness :
    ((bodyW.position.x < volW.lo.x ∨ volW.hi.x < bodyW.position.x) ∧
     (boundaryResolve volW (1/2) bodyW).velocity.x = -((1/2) * bodyW.velocity.x) ∧
     (boundaryResolve volW 0 bodyW).velocity.x = 0 ∧
     (boundaryResolve volW 1 bodyW).velocity.x = -bodyW.velocity.x) ∧
    ((bodyW.position.z < volW.lo.z ∨ volW.hi.z < bodyW.position.z) ∧
     (boundaryResolve volW (1/2) bodyW).velocity.z = -((1/2) * bodyW.velocity.z)) := by
  have hx : bodyW.position.x < volW.lo.x ∨ volW.hi.x < bodyW.position.x := by
    right; decide
  have hz : bodyW.position.z < volW.lo.z ∨ volW.hi.z < bodyW.position.z := by
    left; decide
  refine ⟨⟨hx, (wall_bounce_reflection volW (1/2) bodyW).1 hx⟩,
          ⟨hz, ((wall_bounce_reflection volW (1/2) bodyW).2.2.1 hz).1⟩⟩

theorem normSq_smul (c : ℚ) (v : Vec3) :
    Vec3.normSq (Vec3.smul c v) = c ^ 2 * Vec3.normSq v := by
  unfold Vec3.normSq Vec3.smul
  ring

theorem normSq_pos_of_ne_zero (v : Vec3) (h : v ≠ Vec3.zero) :
    0 < Vec3.normSq v := by
  have hc : v.x ≠ 0 ∨ v.y ≠ 0 ∨ v.z ≠ 0 := by
    by_contra hall
    push_neg at hall
    exact h (by cases v; simp [Vec3.zero] at hall ⊢; exact ⟨hall.1, hall.2.1, hall.2.2⟩)
  unfold Vec3.normSq
  rcases hc with hx | hy | hz
  · nlinarith [mul_self_pos.mpr hx, mul_self_nonneg v.y, mul_self_nonneg v.z]
  · nlinarith [mul_self_pos.mpr hy, mul_self_nonneg v.x, mul_self_nonneg v.z]
  · nlinarith [mul_self_pos.mpr hz, mul_self_nonneg v.x, mul_self_nonneg v.y]

theorem pairsInOrder_sorted (n : Nat) :
    List.Pairwise pairIdxLt (pairsInOrder n) := by
  unfold pairsInOrder
  rw [List.pairwise_flatMap]
  constructor
  · intro i _
    rw [List.pairwise_map]
    exact (List.Pairwise.filter _ (List.pairwise_lt_range n)).imp
      (fun {a b} hab => Or.inr ⟨rfl, hab⟩)
  · have : List.Pairwise (· < ·) (List.range n) := List.pairwise_lt_range n
    refine this.imp ?_
    intro i₁ i₂ h x hx y hy
    simp only [List.mem_map, List.mem_filter] at hx hy
    obtain ⟨j₁, _, rfl⟩ := hx
    obtain ⟨j₂, _, rfl⟩ := hy
    exact Or.inl h

/-- C2: for a detected colliding pair (center distance `d` below the sum
of the radii), the pair resolution moves the centers to a distance of
exactly the radius sum, hence at least the radius sum minus any
nonnegative tolerance; and the collision pass processes its index pairs
in the fixed, stable increasing lexicographic order on every step. -/
theorem collision_pair_separation (b1 b2 : Body) (d tol : ℚ)
    (hd : 0 < d)
    (hdd : d * d = Vec3.normSq (Vec3.sub b2.position b1.position))
    (hcol : d < b1.radius + b2.radius)
    (htol : 0 ≤ tol) :
    (∀ dNew : ℚ, 0 ≤ dNew →
      dNew * dNew = Vec3.normSq (Vec3.sub (resolveWithDist d b1 b2).2.position
                                          (resolveWithDist d b1 b2).1.position) →
      b1.radius + b2.radius - tol ≤ dNew) ∧
    ∀ n, List.Pairwise pairIdxLt (pairsInOrder n) := by
  have hdne : d ≠ 0 := ne_of_gt hd
  have hdiff : Vec3.sub b2.position b1.position ≠ Vec3.zero := by
    intro hz
    rw [hz] at hdd
    have : Vec3.normSq Vec3.zero = 0 := by unfold Vec3.normSq Vec3.zero; norm_num
    rw [this] at hdd
    exact absurd hdd (ne_of_gt (mul_pos hd hd))
  have haxis : sepAxis (Vec3.sub b2.position b1.position)
      = Vec3.sub b2.position b1.position := if_neg hdiff
  have hsub : Vec3.sub (resolveWithDist d b1 b2).2.position
        (resolveWithDist d b1 b2).1.position
      = Vec3.smul ((b1.radius + b2.radius) / d) (Vec3.sub b2.position b1.position) := by
    simp only [resolveWithDist, haxis]
    unfold Vec3.sub Vec3.add Vec3.smul
    simp only [Vec3.mk.injEq]
    refine ⟨by field_simp; ring, by field_simp; ring, by field_simp; ring⟩
  have hnormNew : Vec3.normSq (Vec3.sub (resolveWithDist d b1 b2).2.position
        (resolveWithDist d b1 b2).1.position)
      = (b1.radius + b2.radius) ^ 2 := by
    rw [hsub, normSq_smul, ← hdd]
    have hd2 : (d : ℚ) ^ 2 ≠ 0 := pow_ne_zero 2 hdne
    rw [show d * d = d ^ 2 by ring, div_pow, div_mul_cancel₀ _ hd2]
  refine ⟨?_, pairsInOrder_sorted⟩
  intro dNew h0 hEq
  rw [hnormNew] at hEq
  have hs : 0 < b1.radius + b2.radius := lt_trans hd hcol
  have h1 : (dNew - (b1.radius + b2.radius)) * (dNew + (b1.radius + b2.radius)) = 0 := by
    linear_combination hEq
  rcases mul_eq_zero.mp h1 with h | h
  · have : dNew = b1.radius + b2.radius := by linarith
    linarith
  · linarith

/-- C2 witness: the overlapping concrete pair `bodyA`, `bodyB` at center
distance 1 ends at distance 2 = sum of radii ≥ sum − 1/10. -/
theorem collision_pair_separation_witness :
    (0 : ℚ) < 1 ∧
    (1 : ℚ) * 1 = Vec3.normSq (Vec3.sub bodyB.position bodyA.position) ∧
    (1 : ℚ) < bodyA.radius + bodyB.radius ∧
    (0 : ℚ) ≤ 1 / 10 ∧
    (0 : ℚ) ≤ 2 ∧
    (2 : ℚ) * 2 = Vec3.normSq (Vec3.sub (resolveWithDist 1 bodyA bodyB).2.position
                                        (resolveWithDist 1 bodyA bodyB).1.position) ∧
    bodyA.radius + bodyB.radius - 1 / 10 ≤ 2 := by
  have h2 : (2 : ℚ) * 2 = Vec3.normSq (Vec3.sub (resolveWithDist 1 bodyA bodyB).2.position
      (resolveWithDist 1 bodyA bodyB).1.position) := by
    simp only [resolveWithDist, bodyA, bodyB, sepAxis, fallbackAxis, Vec3.zero, Vec3.sub,
      Vec3.add, Vec3.smul, Vec3.dot, Vec3.normSq]
    norm_num
  refine ⟨by norm_num, ?_, by simp [bodyA, bodyB], by norm_num, by norm_num, h2, ?_⟩
  · simp [bodyA, bodyB, Vec3.sub, Vec3.normSq]
  · exact (collision_pair_separation bodyA bodyB 1 (1 / 10) (by norm_num)
      (by simp [bodyA, bodyB, Vec3.sub, Vec3.normSq]) (by simp [bodyA, bodyB])
      (by norm_num)).1 2 (by norm_num) h2

/-- C8: normalizing the separation axis never divides by zero — the axis
always has positive squared norm, coinciding centers fall back to the
fixed deterministic perturbation axis — and the collision pass handles
every body list in place, always returning a full list of bodies rather
than propagating an error. -/
theorem collision_zero_separation_fallback :
    (∀ diff : Vec3, 0 < Vec3.normSq (sepAxis diff)) ∧
    (∀ b1 b2 : Body, b1.position = b2.position →
      sepAxis (Vec3.sub b2.position b1.position) = fallbackAxis) ∧
    (∀ bs : List Body, (collisionPass bs).length = bs.length) := by
  have hstep : ∀ (bs : List Body) (ij : Nat × Nat),
      (resolvePairAt bs ij).length = bs.length := by
    intro bs ij
    unfold resolvePairAt
    cases bs[ij.1]? with
    | none => rfl
    | some b1 =>
      cases bs[ij.2]? with
      | none => rfl
      | some b2 =>
        dsimp only
        split
        · simp [List.length_set]
        · rfl
  have hfold : ∀ (l : List (Nat × Nat)) (bs : List Body),
      (l.foldl resolvePairAt bs).length = bs.length := by
    intro l
    induction l with
    | nil => intro bs; rfl
    | cons ij tl ih => intro bs; rw [List.foldl_cons, ih, hstep]
  refine ⟨?_, ?_, ?_⟩
  · intro diff
    by_cases h : diff = Vec3.zero
    · rw [sepAxis, if_pos h]
      unfold Vec3.normSq fallbackAxis
      norm_num
    · rw [sepAxis, if_neg h]
      exact normSq_pos_of_ne_zero diff h
  · intro b1 b2 h
    have hz : Vec3.sub b2.position b1.position = Vec3.zero := by
      rw [h]
      unfold Vec3.sub Vec3.zero
      simp
    rw [hz, sepAxis, if_pos rfl]
  · intro bs
    unfold collisionPass
    exact hfold _ bs

/-- C8 witness: a coinciding pair of concrete bodies falls back to the
perturbation axis, and the pass preserves the body count. -/
theorem collision_zero_separation_fallback_witness :
    bodyA.position = bodyA.position ∧
    sepAxis (Vec3.sub bodyA.position bodyA.position) = fallbackAxis ∧
    (collisionPass [bodyA, bodyA]).length = 2 :=
  ⟨rfl, collision_zero_separation_fallback.2.1 bodyA bodyA rfl,
   collision_zero_separation_fallback.2.2 [bodyA, bodyA]⟩

/-- C4: the per-step decay factor is monotone in the configured friction
(a higher value damps less), and with zero gravity, friction 1 and no
cursor attraction the velocity is exactly unchanged after any number of
integration steps with any step sizes. -/
theorem friction_semantics :
    (∀ f1 f2 dt : ℚ, f1 ≤ f2 → frictionFactor f1 dt ≤ frictionFactor f2 dt) ∧
    (∀ (b : Body) (dts : List ℚ),
      (dts.foldl (fun s dt => integrate 0 1 none dt s) b).velocity = b.velocity) := by
  constructor
  · intro f1 f2 dt h
    exact h
  · have hone : ∀ (dt : ℚ) (b : Body), (integrate 0 1 none dt b).velocity = b.velocity := by
      intro dt b
      simp [integrate, frictionFactor, Vec3.smul]
    intro b dts
    induction dts generalizing b with
    | nil => rfl
    | cons dt tl ih => rw [List.foldl_cons, ih, hone]

/-- C4 witness: monotone at 1/2 ≤ 3/4, and a two-step drift of `bodyW`
keeps its velocity. -/
theorem friction_semantics_witness :
    (1 / 2 : ℚ) ≤ 3 / 4 ∧
    frictionFactor (1 / 2) 1 ≤ frictionFactor (3 / 4) 1 ∧
    (([1 / 60, 1 / 30] : List ℚ).foldl
        (fun s dt => integrate 0 1 none dt s) bodyW).velocity = bodyW.velocity :=
  ⟨by norm_num, friction_semantics.1 (1 / 2) (3 / 4) 1 (by norm_num),
   friction_semantics.2 bodyW [1 / 60, 1 / 30]⟩

/-- C7: construction succeeds exactly on valid configurations, any
success returns the configuration unchanged (no silent clamping), and
every invalid configuration yields a `ConfigError`. -/
theorem config_validation (c : SimulationConfig) :
    (validateConfig c = .ok c ↔ c.valid) ∧
    (∀ c2, validateConfig c = .ok c2 → c2 = c) ∧
    (¬ c.valid → ∃ e, validateConfig c = .error e) := by
  have hA : c.valid → validateConfig c = .ok c := by
    intro hv
    obtain ⟨h1, h2, h3, h4, h5, h6, h7⟩ := hv
    unfold validateConfig
    rw [if_neg (by omega), if_neg (by exact not_lt.mpr h2), if_neg h3,
        if_neg (not_lt.mpr h4), if_neg (not_lt.mpr h5),
        if_neg (not_lt.mpr h6), if_neg (not_lt.mpr h7)]
  have hC : ∀ c2, validateConfig c = .ok c2 → c2 = c := by
    intro c2 h
    unfold validateConfig at h
    split_ifs at h
    all_goals first
      | exact Except.noConfusion h
      | (injection h with h2; exact h2.symm)
  have hB : ¬ c.valid → ∃ e, validateConfig c = .error e := by
    intro hnv
    unfold validateConfig
    split_ifs with h1 h2 h3 h4 h5 h6 h7
    · exact ⟨_, rfl⟩
    · exact ⟨_, rfl⟩
    · exact ⟨_, rfl⟩
    · exact ⟨_, rfl⟩
    · exact ⟨_, rfl⟩
    · exact ⟨_, rfl⟩
    · exact ⟨_, rfl⟩
    · exact absurd ⟨by omega, by linarith, h3, by linarith, by linarith,
        by linarith, by linarith⟩ hnv
  refine ⟨⟨fun hok => ?_, hA⟩, hC, hB⟩
  by_contra hnv
  obtain ⟨e, he⟩ := hB hnv
  rw [he] at hok
  exact Except.noConfusion hok

/-- C7 witness: the source's `BallpitBackground` configuration is valid
and accepted unchanged. -/
theorem config_validation_witness :
    cfgW.valid ∧ validateConfig cfgW = .ok cfgW := by
  have hv : cfgW.valid := by
    unfold cfgW SimulationConfig.valid
    refine ⟨by norm_num, by norm_num, by simp, by norm_num, by norm_num,
      by norm_num, by norm_num⟩
  exact ⟨hv, (config_validation cfgW).1.mpr hv⟩

theorem handleEvent_disposed (s : LoopState) (e : HostEvent)
    (hd : s.phase = .disposed) : handleEvent s e = (s, none) := by
  unfold handleEvent
  rw [hd]

/-- C6: once the loop is disposed, no subsequent sequence of pending
host events executes a physics step or publishes a snapshot (the state
is literally unchanged); and disposing a not-yet-disposed loop leaves
the disposed phase with no timer and no observer registered. -/
theorem disposal_is_final (s : LoopState) (events : List HostEvent)
    (hd : s.phase = .disposed) :
    (processEvents s events).1 = s ∧ (processEvents s events).2 = [] ∧
    ∀ s0 : LoopState, s0.phase ≠ .disposed →
      (handleEvent s0 .dispose).1.phase = .disposed ∧
      (handleEvent s0 .dispose).1.timerRegistered = false ∧
      (handleEvent s0 .dispose).1.observerRegistered = false := by
  have hdisp : ∀ s0 : LoopState, s0.phase ≠ .disposed →
      (handleEvent s0 .dispose).1.phase = .disposed ∧
      (handleEvent s0 .dispose).1.timerRegistered = false ∧
      (handleEvent s0 .dispose).1.observerRegistered = false := by
    intro s0 h0
    unfold handleEvent
    cases hph : s0.phase with
    | disposed => exact absurd hph h0
    | uninit => exact ⟨rfl, rfl, rfl⟩
    | running => exact ⟨rfl, rfl, rfl⟩
    | paused => exact ⟨rfl, rfl, rfl⟩
  have hrun : ∀ (es : List HostEvent),
      (processEvents s es).1 = s ∧ (processEvents s es).2 = [] := by
    intro es
    induction es with
    | nil => exact ⟨rfl, rfl⟩
    | cons e tl ih =>
      simp only [processEvents, handleEvent_disposed s e hd]
      exact ⟨ih.1, by simp [ih.2]⟩
  exact ⟨(hrun events).1, (hrun events).2, hdisp⟩

/-- C6 witness: a concrete disposed state ignores a concrete pending
event sequence, and disposing a concrete running state clears the timer
and observer. -/
theorem disposal_is_final_witness :
    stateW.phase = .disposed ∧
    (processEvents stateW [.tick 1, .visibility true, .dispose]).1 = stateW ∧
    (processEvents stateW [.tick 1, .visibility true, .dispose]).2 = [] ∧
    runningW.phase ≠ .disposed ∧
    (handleEvent runningW .dispose).1.timerRegistered = false := by
  have h := disposal_is_final stateW [.tick 1, .visibility true, .dispose] rfl
  have hr : runningW.phase ≠ Phase.disposed := by
    intro hc
    exact Phase.noConfusion hc
  exact ⟨rfl, h.1, h.2.1, hr, (h.2.2 runningW hr).2.1⟩

/-- C5: determinism as a two-run property — two runs whose
configuration, bounding volume, seed and input sequences agree produce
identical snapshot sequences. -/
theorem run_determinism (cfg1 cfg2 : SimulationConfig) (vol1 vol2 : BoundingVolume)
    (seed1 seed2 : Nat) (ins1 ins2 : List (ℚ × Option Vec3))
    (hc : cfg1 = cfg2) (hv : vol1 = vol2) (hs : seed1 = seed2) (hi : ins1 = ins2) :
    runSim cfg1 vol1 seed1 ins1 = runSim cfg2 vol2 seed2 ins2 := by
  rw [hc, hv, hs, hi]

/-- C5 witness: two concrete identical runs coincide. -/
theorem run_determinism_witness :
    cfgW = cfgW ∧ volW = volW ∧ 7 = 7 ∧
    ([(1 / 60, none), (1 / 30, some ⟨0, 0, 0⟩)] : List (ℚ × Option Vec3))
      = [(1 / 60, none), (1 / 30, some ⟨0, 0, 0⟩)] ∧
    runSim cfgW volW 7 [(1 / 60, none), (1 / 30, some ⟨0, 0, 0⟩)]
      = runSim cfgW volW 7 [(1 / 60, none), (1 / 30, some ⟨0, 0, 0⟩)] :=
  ⟨rfl, rfl, rfl, rfl,
   run_determinism cfgW cfgW volW volW 7 7 _ _ rfl rfl rfl rfl⟩

end Ballpit

namespace ChatPage

/-!
Embedding of `frontend/app/page.tsx`: the `callBackend` fetch wrapper
and the `ReportRenderer` component.  JavaScript strings are modelled as
`String` (for `callBackend`) and as `List Char` (for the character-level
scanning of `ReportRenderer`).
-/

/-- What the `try` block of `callBackend` observes: the attempt throws
somewhere (the fetch rejects, or reading the body does), or a response
arrives with its `ok` flag and the parsed body's `response` field.  An
absent field is `none`; the empty string is the only falsy string. -/
inductive BackendAttempt where
  | throws
  | success (responseOk : Bool) (field : Option String)

/-- The fixed fallback message of the `catch` block in `callBackend`
(`frontend/app/page.tsx`, line 57). -/
def connectFallback : String :=
  "I apologize, but I\x27m having trouble connecting to the analysis backend. Please ensure the backend server is running on port 8001."

/-- The start of the fallback message named by the spec claim. -/
def connectFallbackStart : String :=
  "I apologize, but I\x27m having trouble connecting"

/-- The message substituted for an absent or falsy `response` field
(`frontend/app/page.tsx`, line 54). -/
def unavailableMsg : String := "Analysis unavailable."

/-- `callBackend` from `frontend/app/page.tsx` lines 41–59: a non-ok
status throws into the same `catch` as a network failure; a missing or
falsy `response` field falls back to `unavailableMsg`; otherwise the
field itself is returned.  Every branch returns a string — the promise
never rejects. -/
def callBackend : BackendAttempt → String
  | .throws => connectFallback
  | .success false _ => connectFallback
  | .success true none => unavailableMsg
  | .success true (some s) => if s = "" then unavailableMsg else s

/-- ASCII letter test: the character class `[a-z]` under the `i` flag. -/
def isAsciiLetter (c : Char) : Bool :=
  (97 ≤ c.toNat && c.toNat ≤ 122) || (65 ≤ c.toNat && c.toNat ≤ 90)

/-- Does the list contain a closing angle bracket. -/
def containsGt (l : List Char) : Bool := l.any fun c => c = '>'

/-- Does the list begin, at its head, with `<`, an ASCII letter, and a
later `>` — one match site of the regex `<[a-z][\s\S]*>` with the `i`
flag. -/
def tagAt : List Char → Bool
  | c :: d :: rest => decide (c = '<') && isAsciiLetter d && containsGt rest
  | _ => false

/-- `isHTML` from `frontend/app/page.tsx` line 247: whether
`/<[a-z][\s\S]*>/i` matches anywhere in the content. -/
def isHTML : List Char → Bool
  | [] => false
  | c :: rest => tagAt (c :: rest) || isHTML rest

/-- The characters removed by ECMAScript `String.prototype.trim`: the
WhiteSpace and LineTerminator productions — TAB through CR, space,
NBSP (U+00A0), Ogham space mark (U+1680), the Zs spaces U+2000–U+200A,
LS and PS (U+2028, U+2029), narrow no-break space (U+202F), medium
mathematical space (U+205F), ideographic space (U+3000), and ZWNBSP
(U+FEFF). -/
def isWsChar (c : Char) : Bool :=
  let n := c.toNat
  (9 ≤ n && n ≤ 13) || n == 32 || n == 160 || n == 5760 ||
  (8192 ≤ n && n ≤ 8202) || n == 8232 || n == 8233 || n == 8239 ||
  n == 8287 || n == 12288 || n == 65279

/-- JavaScript `String.prototype.trim` on a character list. -/
def trimChars (l : List Char) : List Char :=
  ((l.dropWhile isWsChar).reverse.dropWhile isWsChar).reverse

/-- JavaScript `content.split('\n')`. -/
def splitLines : List Char → List (List Char)
  | [] => [[]]
  | c :: rest =>
    match splitLines rest with
    | [] => [[c]]
    | r :: rs => if c = '\n' then [] :: r :: rs else (c :: r) :: rs

/-- The classification a non-empty line receives in the markdown
fallback of `ReportRenderer`. -/
inductive LineKind where
  | h1
  | h2
  | h3
  | bullet
  | ordered
  | bold
  | plain
  deriving DecidableEq, Repr

/-- `line.split('**').length > 1`, i.e. the line contains `**`. -/
def hasBoldMark : List Char → Bool
  | a :: b :: rest => (decide (a = '*') && decide (b = '*')) || hasBoldMark (b :: rest)
  | _ => false

/-- `line.match(/^\d\./)`: a single digit followed by a literal dot at
the start of the line. -/
def isOrderedStart : List Char → Bool
  | a :: b :: _ => a.isDigit && decide (b = '.')
  | _ => false

/-- The if-chain of `ReportRenderer`s markdown fallback
(`frontend/app/page.tsx` lines 264–285), in the code's order:
`'# '`, `'## '`, `'### '` on the raw line, `'- '` or `'* '` on the
trimmed line, a digit-dot start, a `**` pair, else a paragraph. -/
def classify (line : List Char) : LineKind :=
  if List.isPrefixOf ['#', ' '] line then .h1
  else if List.isPrefixOf ['#', '#', ' '] line then .h2
  else if List.isPrefixOf ['#', '#', '#', ' '] line then .h3
  else if List.isPrefixOf ['-', ' '] (trimChars line)
       || List.isPrefixOf ['*', ' '] (trimChars line) then .bullet
  else if isOrderedStart line then .ordered
  else if hasBoldMark line then .bold
  else .plain

/-- The two rendering branches of `ReportRenderer`: raw HTML injected
unchanged via `dangerouslySetInnerHTML`, or the line-by-line markdown
fallback. -/
inductive RenderResult where
  | rawHtml (content : List Char)
  | markdown (lines : List LineKind)
  deriving DecidableEq, Repr

/-- `ReportRenderer` from `frontend/app/page.tsx` lines 243–288: the raw
HTML branch exactly when the regex matches; otherwise split into lines,
drop the lines that are empty after trimming, and classify the rest. -/
def ReportRenderer (content : List Char) : RenderResult :=
  if isHTML content then .rawHtml content
  else .markdown
    (((splitLines content).filter fun l => !(trimChars l).isEmpty).map classify)

/-- C9: `callBackend` always resolves — to the connection-trouble
fallback (which begins with the quoted prefix) when the fetch throws or
the status is not ok, to the unavailable message when the `response`
field is absent or falsy, and to the field itself otherwise. -/
theorem callBackend_resolution :
    callBackend .throws = connectFallback ∧
    (∀ f, callBackend (.success false f) = connectFallback) ∧
    List.isPrefixOf connectFallbackStart.data connectFallback.data = true ∧
    callBackend (.success true none) = unavailableMsg ∧
    callBackend (.success true (some "")) = unavailableMsg ∧
    ∀ s : String, s ≠ "" → callBackend (.success true (some s)) = s := by
  refine ⟨rfl, fun f => rfl, ?_, rfl, rfl, fun s hs => ?_⟩
  · set_option maxRecDepth 4000 in decide
  · show (if s = "" then unavailableMsg else s) = s
    rw [if_neg hs]

/-- C9 witness: a non-empty concrete field value is returned verbatim. -/
theorem callBackend_resolution_witness :
    unavailableMsg ≠ "" ∧
    callBackend (.success true (some unavailableMsg)) = unavailableMsg :=
  ⟨by decide, callBackend_resolution.2.2.2.2.2 unavailableMsg (by decide)⟩

theorem containsGt_iff (l : List Char) :
    containsGt l = true ↔ ∃ mid post, l = mid ++ '>' :: post := by
  unfold containsGt
  rw [List.any_eq_true]
  constructor
  · rintro ⟨x, hx, hxe⟩
    rw [decide_eq_true_eq] at hxe
    subst hxe
    exact List.append_of_mem hx
  · rintro ⟨mid, post, rfl⟩
    exact ⟨'>', by simp, by simp⟩

theorem tagAt_iff (l : List Char) :
    tagAt l = true ↔
      ∃ d rest2, l = '<' :: d :: rest2 ∧ isAsciiLetter d = true ∧ containsGt rest2 = true := by
  match l with
  | [] => simp [tagAt]
  | [c] => simp [tagAt]
  | c :: d :: rest =>
    rw [tagAt]
    simp only [Bool.and_eq_true, decide_eq_true_eq]
    constructor
    · rintro ⟨⟨rfl, hd⟩, hgt⟩
      exact ⟨d, rest, rfl, hd, hgt⟩
    · rintro ⟨d2, rest2, heq, hd2, hgt2⟩
      obtain ⟨rfl, rfl, rfl⟩ : c = '<' ∧ d = d2 ∧ rest = rest2 := by
        simpa using heq
      exact ⟨⟨rfl, hd2⟩, hgt2⟩

/-- The regex `/<[a-z][\s\S]*>/i` matches the content exactly when the
content decomposes around a `<`, an ASCII letter, and a later `>`. -/
theorem isHTML_iff (l : List Char) :
    isHTML l = true ↔
      ∃ pre d mid post,
        l = pre ++ '<' :: d :: (mid ++ '>' :: post) ∧ isAsciiLetter d = true := by
  induction l with
  | nil =>
    constructor
    · intro h
      exact absurd h (by simp [isHTML])
    · rintro ⟨pre, d, mid, post, h, _⟩
      cases pre <;> simp_all
  | cons c rest ih =>
    rw [isHTML, Bool.or_eq_true]
    constructor
    · intro h
      rcases h with h1 | h2
      · obtain ⟨d, rest2, heq, hd, hgt⟩ := (tagAt_iff (c :: rest)).mp h1
        obtain ⟨rfl, rfl⟩ : c = '<' ∧ rest = d :: rest2 := by simpa using heq
        obtain ⟨mid, post, rfl⟩ := (containsGt_iff rest2).mp hgt
        exact ⟨[], d, mid, post, rfl, hd⟩
      · obtain ⟨pre, d, mid, post, heq, hd⟩ := ih.mp h2
        exact ⟨c :: pre, d, mid, post, by rw [heq]; rfl, hd⟩
    · rintro ⟨pre, d, mid, post, heq, hd⟩
      cases pre with
      | nil =>
        left
        obtain ⟨rfl, rfl⟩ : c = '<' ∧ rest = d :: (mid ++ '>' :: post) := by simpa using heq
        exact (tagAt_iff _).mpr ⟨d, mid ++ '>' :: post, rfl, hd,
          (containsGt_iff _).mpr ⟨mid, post, rfl⟩⟩
      | cons p pre2 =>
        right
        obtain ⟨rfl, hrest⟩ : c = p ∧ rest = pre2 ++ '<' :: d :: (mid ++ '>' :: post) := by
          simpa using heq
        exact ih.mpr ⟨pre2, d, mid, post, hrest, hd⟩

/-- C10: `ReportRenderer` selects the raw-HTML branch (the content
injected unchanged) precisely when the content decomposes as a match of
`/<[a-z][\s\S]*>/i`; any other content is rendered by the markdown
fallback, which keeps exactly the lines that are non-empty after
trimming and classifies each by its leading markers in the fixed
order. -/
theorem report_renderer_branches (content : List Char) :
    (ReportRenderer content = .rawHtml content ↔
      ∃ pre d mid post,
        content = pre ++ '<' :: d :: (mid ++ '>' :: post) ∧ isAsciiLetter d = true) ∧
    ((¬ ∃ pre d mid post,
        content = pre ++ '<' :: d :: (mid ++ '>' :: post) ∧ isAsciiLetter d = true) →
      ReportRenderer content = .markdown
        (((splitLines content).filter fun l => !(trimChars l).isEmpty).map classify)) := by
  constructor
  · rw [← isHTML_iff]
    unfold ReportRenderer
    constructor
    · intro h
      by_contra hb
      rw [Bool.not_eq_true] at hb
      rw [if_neg (by simp [hb])] at h
      exact RenderResult.noConfusion h
    · intro h
      rw [if_pos h]
  · rw [← isHTML_iff]
    intro h
    unfold ReportRenderer
    rw [if_neg h]

/-- C10 witness: a concrete HTML-looking content takes the raw branch;
a concrete markdown content takes the fallback with empty lines
dropped. -/
theorem report_renderer_branches_witness :
    ReportRenderer ['<', 'b', '>', 'h', 'i'] = .rawHtml ['<', 'b', '>', 'h', 'i'] ∧
    (¬ ∃ pre d mid post,
        ['#', ' ', 'T', '\n', '\n', '*', ' ', 'x']
          = pre ++ '<' :: d :: (mid ++ '>' :: post) ∧ isAsciiLetter d = true) ∧
    ReportRenderer ['#', ' ', 'T', '\n', '\n', '*', ' ', 'x']
      = .markdown [.h1, .bullet] := by
  have hm : ¬ ∃ pre d mid post,
      ['#', ' ', 'T', '\n', '\n', '*', ' ', 'x']
        = pre ++ '<' :: d :: (mid ++ '>' :: post) ∧ isAsciiLetter d = true := by
    rw [← isHTML_iff]
    decide
  refine ⟨?_, hm, ?_⟩
  · exact (report_renderer_branches ['<', 'b', '>', 'h', 'i']).1.mpr
      ⟨[], 'b', [], ['h', 'i'], rfl, by decide⟩
  · rw [(report_renderer_branches ['#', ' ', 'T', '\n', '\n', '*', ' ', 'x']).2 hm]
    decide

end ChatPage
